import Mathlib

/-!
Verification of the TSLite single-file time-series store.

The Rust source (src/lib.rs) is shallowly embedded here:
- machine integers (u8/u16/u32/u64) become `Nat` with well-formedness
  predicates recording their ranges, and explicit `% 256`-style splits where
  the code serialises them;
- the backing file becomes a `List Nat` of bytes; `seek`+`read` becomes
  `readAt` (take/drop, short reads visible as short lists) and `seek`+`write`
  becomes `writeAt` (overwrite, zero-fill when seeking past end-of-file,
  extension at the tail), which is POSIX file semantics;
- `From<&[u8]>` decoders call `.unwrap()` on the byte reader, so they panic
  when the slice is too short; a panic is modelled as `none`;
- fallible store operations return `Except TSLiteError`.
-/

/-- Error type of the store, from `enum TSLiteError`. -/
inductive TSLiteError where
  | IOError : String → TSLiteError
  | IndexOutOfBound : TSLiteError
deriving DecidableEq, Repr

/-- The 7-byte calendar timestamp, from `struct Timestamp`.
Fields are `u16`/`u8` in the source; here `Nat` with `Timestamp.wf` recording
the machine ranges. -/
structure Timestamp where
  year : Nat
  month : Nat
  day : Nat
  hour : Nat
  minute : Nat
  second : Nat
deriving DecidableEq, Repr

/-- Machine-range invariant of the Rust field types (`year: u16`, rest `u8`). -/
def Timestamp.wf (t : Timestamp) : Prop :=
  t.year < 65536 ∧ t.month < 256 ∧ t.day < 256 ∧ t.hour < 256 ∧
    t.minute < 256 ∧ t.second < 256

instance (t : Timestamp) : Decidable t.wf := by
  unfold Timestamp.wf; infer_instance

/-- `Timestamp::as_bytes`: little-endian `u16` year followed by the five
`u8` fields; exactly 7 bytes. -/
def Timestamp.as_bytes (t : Timestamp) : List Nat :=
  [t.year % 256, t.year / 256 % 256, t.month, t.day, t.hour, t.minute, t.second]

/-- The field extraction performed by `impl From<&[u8]> for Timestamp` once
enough bytes are present (Cursor reads of a u16 then five u8). -/
def Timestamp.fromBytesTotal (d : List Nat) : Timestamp :=
  { year := d.getD 0 0 + 256 * d.getD 1 0
    month := d.getD 2 0
    day := d.getD 3 0
    hour := d.getD 4 0
    minute := d.getD 5 0
    second := d.getD 6 0 }

/-- `impl From<&[u8]> for Timestamp`. Every read is `.unwrap()`ed, so a slice
of fewer than 7 bytes makes the conversion panic: modelled as `none`. -/
def Timestamp.fromBytes (d : List Nat) : Option Timestamp :=
  if 7 ≤ d.length then some (Timestamp.fromBytesTotal d) else none

/-- `Timestamp::is_valid`, translated clause by clause: the month/day/time
range checks, the leap-year special case for February, and the odd/even
month-length rule used for every other month. -/
def Timestamp.is_valid (t : Timestamp) : Bool :=
  (decide (1 ≤ t.month) && decide (t.month ≤ 12)) &&
  decide (1 ≤ t.day) &&
  decide (t.hour < 24) && decide (t.minute < 60) && decide (t.second < 60) &&
  (if t.month = 2 then
    (if decide (t.year % 4 = 0) &&
        (!decide (t.year % 100 = 0) || decide (t.year % 400 = 0)) then
      decide (t.day ≤ 29)
    else
      decide (t.day ≤ 28))
  else
    (decide (t.month % 2 = 0) && decide (t.day ≤ 30) ||
     decide (t.month % 2 = 1) && decide (t.day ≤ 31)))

/-- Actual Gregorian leap-year rule (also the rule chrono implements). -/
def isLeap (y : Nat) : Bool :=
  decide (y % 4 = 0) && (!decide (y % 100 = 0) || decide (y % 400 = 0))

/-- Actual length of month `m` of year `y` in the Gregorian calendar. -/
def daysInMonth (y m : Nat) : Nat :=
  if m = 2 then (if isLeap y then 29 else 28)
  else if m = 4 ∨ m = 6 ∨ m = 9 ∨ m = 11 then 30
  else 31

/-- The validity predicate the spec describes (real calendar field ranges):
`1 ≤ month ≤ 12`, `1 ≤ day ≤` the month's true length, `hour < 24`,
`minute < 60`, `second < 60`. This is also exactly the domain on which
chrono's `Utc.ymd(..).and_hms(..)` (used by `Timestamp::offset`) does not
panic. -/
def realValid (t : Timestamp) : Bool :=
  decide (1 ≤ t.month) && decide (t.month ≤ 12) &&
  decide (1 ≤ t.day) && decide (t.day ≤ daysInMonth t.year t.month) &&
  decide (t.hour < 24) && decide (t.minute < 60) && decide (t.second < 60)

/-- Modelled from the spec and chrono's documented semantics: the absolute
second count of a timestamp on the proleptic Gregorian calendar (what
chrono's `DateTime<Utc>` subtraction measures differences of). Days are
counted with the standard era-based civil-calendar formula, shifted by a
constant (+400 years) so the computation stays in `Nat` even for year 0 and
months ≤ 2; the constant cancels in every difference of two timestamps, so
differences are exactly chrono's. -/
def Timestamp.toSecs (t : Timestamp) : Nat :=
  let yAdj := t.year + 400 - (if t.month ≤ 2 then 1 else 0)
  let mp := (t.month + 9) % 12
  let doy := (153 * mp + 2) / 5 + (t.day - 1)
  let days := 365 * yAdj + yAdj / 4 - yAdj / 100 + yAdj / 400 + doy
  86400 * days + 3600 * t.hour + 60 * t.minute + t.second

/-- `Timestamp::offset`: converts both timestamps to chrono `DateTime<Utc>`
(`Utc.ymd(..).and_hms(..)`, which panics — `none` — on an invalid calendar
date), subtracts, takes `num_seconds()` (the exact signed difference) and
casts `as u32` (truncation to the low 32 bits, i.e. the canonical
representative of the signed difference modulo `2^32`). -/
def Timestamp.offset (a date : Timestamp) : Option Nat :=
  if realValid a && realValid date then
    some ((((date.toSecs : Int) - (a.toSecs : Int)) % 4294967296).toNat)
  else none

/-- A database record, from `struct RecordInfo` (`time_offset: u32`,
`value: u8`). -/
structure RecordInfo where
  time_offset : Nat
  value : Nat
deriving DecidableEq, Repr

/-- Machine-range invariant of the Rust field types. -/
def RecordInfo.wf (r : RecordInfo) : Prop :=
  r.time_offset < 4294967296 ∧ r.value < 256

instance (r : RecordInfo) : Decidable r.wf := by
  unfold RecordInfo.wf; infer_instance

/-- Little-endian bytes of a `u32`, as written by `write_u32::<LittleEndian>`. -/
def u32le (n : Nat) : List Nat :=
  [n % 256, n / 256 % 256, n / 65536 % 256, n / 16777216 % 256]

/-- Little-endian bytes of a `u64`, as written by `write_u64::<LittleEndian>`. -/
def u64le (n : Nat) : List Nat :=
  [n % 256, n / 256 % 256, n / 65536 % 256, n / 16777216 % 256,
   n / 4294967296 % 256, n / 1099511627776 % 256,
   n / 281474976710656 % 256, n / 72057594037927936 % 256]

/-- `RecordInfo::as_bytes`: 4-byte little-endian offset then the value byte. -/
def RecordInfo.as_bytes (r : RecordInfo) : List Nat :=
  u32le r.time_offset ++ [r.value]

/-- Field extraction of `impl From<&[u8]> for RecordInfo` once enough bytes
are present. -/
def RecordInfo.fromBytesTotal (d : List Nat) : RecordInfo :=
  { time_offset := d.getD 0 0 + 256 * d.getD 1 0 + 65536 * d.getD 2 0 +
      16777216 * d.getD 3 0
    value := d.getD 4 0 }

/-- `impl From<&[u8]> for RecordInfo`; panics (`none`) on fewer than
5 bytes. -/
def RecordInfo.fromBytes (d : List Nat) : Option RecordInfo :=
  if 5 ≤ d.length then some (RecordInfo.fromBytesTotal d) else none

/-- The file header, from `struct DbHeader`. -/
structure DbHeader where
  origin_date : Timestamp
  records_number : Nat
deriving DecidableEq, Repr

/-- Machine-range invariant (`records_number: u64`). -/
def DbHeader.wf (h : DbHeader) : Prop :=
  h.origin_date.wf ∧ h.records_number < 18446744073709551616

instance (h : DbHeader) : Decidable h.wf := by
  unfold DbHeader.wf; infer_instance

/-- `DbHeader::as_bytes`: 7 timestamp bytes then the 8-byte record count. -/
def DbHeader.as_bytes (h : DbHeader) : List Nat :=
  h.origin_date.as_bytes ++ u64le h.records_number

/-- Field extraction of `impl From<&[u8]> for DbHeader` once enough bytes are
present: the timestamp from bytes 0..7, the `u64` count from bytes 7..15. -/
def DbHeader.fromBytesTotal (d : List Nat) : DbHeader :=
  { origin_date := Timestamp.fromBytesTotal d
    records_number := d.getD 7 0 + 256 * d.getD 8 0 + 65536 * d.getD 9 0 +
      16777216 * d.getD 10 0 + 4294967296 * d.getD 11 0 +
      1099511627776 * d.getD 12 0 + 281474976710656 * d.getD 13 0 +
      72057594037927936 * d.getD 14 0 }

/-- `impl From<&[u8]> for DbHeader`; panics (`none`) on fewer than
15 bytes (the inner `u64` read at position 7 needs bytes 7..15). -/
def DbHeader.fromBytes (d : List Nat) : Option DbHeader :=
  if 15 ≤ d.length then some (DbHeader.fromBytesTotal d) else none

/-- The store, from `struct PhysicalDB`: the backing file's bytes and the
in-memory cached header. The `path` and lazily opened handle of the source
carry no semantic content for an in-memory file model: every accessor begins
with the same "open if not open" step, so the handle state never changes
which bytes an operation sees. -/
structure PhysicalDB where
  file : List Nat
  header : DbHeader
deriving DecidableEq, Repr

/-- `seek(Start pos)` followed by reading up to `n` bytes: returns the bytes
that are actually available, so a short read is visible as a list of length
less than `n` (POSIX read-at-offset semantics). -/
def readAt (f : List Nat) (pos n : Nat) : List Nat :=
  (f.drop pos).take n

/-- `seek(Start pos)` followed by `write(d)`: overwrites in place, zero-fills
the gap when `pos` is past end-of-file, and extends the file at the tail
(POSIX write-at-offset semantics). -/
def writeAt (f : List Nat) (pos : Nat) (d : List Nat) : List Nat :=
  f.take pos ++ List.replicate (pos - f.length) 0 ++ d ++ f.drop (pos + d.length)

/-- `PhysicalDB::create`: writes a fresh 15-byte header with
`records_number = 0` for the given origin date and caches it. -/
def PhysicalDB.create (origin : Timestamp) : PhysicalDB :=
  { file := DbHeader.as_bytes { origin_date := origin, records_number := 0 }
    header := { origin_date := origin, records_number := 0 } }

/-- `PhysicalDB::read_header`: reads 15 bytes at offset 0; a short read is
the `IOError` of the source, otherwise the bytes are decoded (the decode
cannot panic because exactly 15 bytes were read). -/
def PhysicalDB.read_header (db : PhysicalDB) : Except TSLiteError DbHeader :=
  let buffer := readAt db.file 0 15
  if buffer.length = 15 then .ok (DbHeader.fromBytesTotal buffer)
  else .error (.IOError "Could not read header: not enough octets.")

/-- `PhysicalDB::check_record_index`: the source compares the file length
against `(7+8) + (4+1) * rec_id`, i.e. the start offset of slot `rec_id`,
not the end of the slot. -/
def PhysicalDB.check_record_index (db : PhysicalDB) (rec_id : Nat) : Bool :=
  decide (15 + 5 * rec_id ≤ db.file.length)

/-- `PhysicalDB::read_record`: index check, then read 5 bytes at
`15 + 5 * rec_id`; a short read is an `IOError`. -/
def PhysicalDB.read_record (db : PhysicalDB) (rec_id : Nat) :
    Except TSLiteError RecordInfo :=
  if db.check_record_index rec_id then
    let buffer := readAt db.file (15 + 5 * rec_id) 5
    if buffer.length = 5 then .ok (RecordInfo.fromBytesTotal buffer)
    else .error (.IOError "Could not read record: not enough octets.")
  else .error .IndexOutOfBound

/-- `PhysicalDB::update_record_number`: writes the 8-byte little-endian
count `header.records_number + drn` at offset 7 and bumps the cached
header. -/
def PhysicalDB.update_record_number (db : PhysicalDB) (drn : Nat) : PhysicalDB :=
  { file := writeAt db.file 7 (u64le (db.header.records_number + drn))
    header := { db.header with
      records_number := db.header.records_number + drn } }

/-- `PhysicalDB::append_record`: writes the 5 record bytes at end-of-file,
then runs `update_record_number 1`. -/
def PhysicalDB.append_record (db : PhysicalDB) (rec_nfo : RecordInfo) :
    PhysicalDB :=
  PhysicalDB.update_record_number
    { db with file := writeAt db.file db.file.length rec_nfo.as_bytes } 1

/-- A sequence of `append_record` calls, left to right. -/
def PhysicalDB.append_all (db : PhysicalDB) (rs : List RecordInfo) :
    PhysicalDB :=
  rs.foldl PhysicalDB.append_record db

/-- `PhysicalDB::update_record`: index check (the same start-of-slot check
as `read_record`), then overwrite the single value byte at
`15 + 5 * rec_id + 4`. The cached header is untouched. -/
def PhysicalDB.update_record (db : PhysicalDB) (rec_id : Nat) (value : Nat) :
    Except TSLiteError PhysicalDB :=
  if db.check_record_index rec_id then
    .ok { db with file := writeAt db.file (15 + 5 * rec_id + 4) [value] }
  else .error .IndexOutOfBound

/-- Potential issues found by the integrity scan, from `enum DbIssue`. -/
inductive DbIssue where
  | UnorderedRecord : DbIssue
  | HeaderCorrupted : DbIssue
  | OriginDateInvalid : DbIssue
  | RecordCorrupted : Nat → DbIssue
  | MismatchRecordAmount : DbIssue
  | None : DbIssue
deriving DecidableEq, Repr

/-- The record loop of `check_db_file`, iterating `i` from `0` to `n - 1`
(so `rem` counts the remaining iterations and `i + rem = n` on the call
path) with `off` the running maximum offset initialised to `0`; after the
loop the source checks `check_record_index(header.records_number)`. -/
def PhysicalDB.checkRecords (db : PhysicalDB) (n : Nat) :
    Nat → Nat → Nat → DbIssue
  | _, _, 0 =>
    if db.check_record_index n then DbIssue.None
    else DbIssue.MismatchRecordAmount
  | off, i, rem + 1 =>
    match db.read_record i with
    | .error _ => DbIssue.RecordCorrupted i
    | .ok record =>
      if off > record.time_offset then DbIssue.UnorderedRecord
      else db.checkRecords n record.time_offset (i + 1) rem

/-- `PhysicalDB::check_db_file`: header read (failure is `HeaderCorrupted`),
origin-date validity, then the record loop. The in-memory file model cannot
produce the `Err` results the source threads through `?`, so the result is
the `DbIssue` itself. -/
def PhysicalDB.check_db_file (db : PhysicalDB) : DbIssue :=
  match db.read_header with
  | .error _ => DbIssue.HeaderCorrupted
  | .ok header =>
    if header.origin_date.is_valid then
      db.checkRecords header.records_number 0 0 header.records_number
    else DbIssue.OriginDateInvalid

/-- The read loop of `reorder_record`: reads records `i, i+1, ...` while
`rem` counts down, propagating the first error (`?` in the source). -/
def PhysicalDB.readAll (db : PhysicalDB) :
    Nat → Nat → Except TSLiteError (List RecordInfo)
  | _, 0 => .ok []
  | i, rem + 1 =>
    match db.read_record i with
    | .error e => .error e
    | .ok r =>
      match db.readAll (i + 1) rem with
      | .error e => .error e
      | .ok rs => .ok (r :: rs)

/-- Insertion of a record into a list sorted by `time_offset`; together with
`sortRecords` this models `records.sort_unstable()`, whose `Ord` instance
compares `time_offset` only (tie order is unspecified in the source). -/
def insertRecord (r : RecordInfo) : List RecordInfo → List RecordInfo
  | [] => [r]
  | x :: xs =>
    if r.time_offset ≤ x.time_offset then r :: x :: xs
    else x :: insertRecord r xs

/-- Comparison sort by `time_offset`, modelling `sort_unstable`. -/
def sortRecords : List RecordInfo → List RecordInfo
  | [] => []
  | x :: xs => insertRecord x (sortRecords xs)

/-- `PhysicalDB::reorder_record`: reads all `header.records_number` records,
sorts them, and rewrites the record slots consecutively starting at file
offset 15 (the source's loop of consecutive 5-byte writes is the single
write of the concatenation). -/
def PhysicalDB.reorder_record (db : PhysicalDB) :
    Except TSLiteError PhysicalDB :=
  match db.readAll 0 db.header.records_number with
  | .error e => .error e
  | .ok records =>
    .ok { db with
      file := writeAt db.file 15 (((sortRecords records).map
        RecordInfo.as_bytes).flatten) }

/-- A store holding exactly one record: created fresh at origin 2020-01-01
and given one `append_record`. Its file is 20 bytes (15-byte header plus one
5-byte slot) and its header declares one record. -/
def oneRecordDB : PhysicalDB :=
  (PhysicalDB.create ⟨2020, 1, 1, 0, 0, 0⟩).append_record ⟨3, 7⟩

/-- A file whose valid 15-byte header declares one record but whose body
holds no record bytes at all (what a crash between the record write and the
count write, or external truncation, leaves behind). -/
def missingSlotDB : PhysicalDB :=
  { file := DbHeader.as_bytes ⟨⟨2020, 1, 1, 0, 0, 0⟩, 1⟩
    header := ⟨⟨2020, 1, 1, 0, 0, 0⟩, 1⟩ }

/-- A file whose valid header declares one record but whose body physically
holds two complete record slots. -/
def extraSlotDB : PhysicalDB :=
  { file := DbHeader.as_bytes ⟨⟨2020, 1, 1, 0, 0, 0⟩, 1⟩ ++
      RecordInfo.as_bytes ⟨3, 7⟩ ++ RecordInfo.as_bytes ⟨5, 9⟩
    header := ⟨⟨2020, 1, 1, 0, 0, 0⟩, 1⟩ }

/-- The ten records of the reorder scenario: time offsets 9 down to 0 in
append order, with arbitrary value bytes. -/
def tenReversed (v0 v1 v2 v3 v4 v5 v6 v7 v8 v9 : Nat) : List RecordInfo :=
  [⟨9, v0⟩, ⟨8, v1⟩, ⟨7, v2⟩, ⟨6, v3⟩, ⟨5, v4⟩,
   ⟨4, v5⟩, ⟨3, v6⟩, ⟨2, v7⟩, ⟨1, v8⟩, ⟨0, v9⟩]

/-- A store freshly created at origin 2020-01-01 and populated by appending
the ten reversed-offset records in order. -/
def tenReversedDB (v0 v1 v2 v3 v4 v5 v6 v7 v8 v9 : Nat) : PhysicalDB :=
  (PhysicalDB.create ⟨2020, 1, 1, 0, 0, 0⟩).append_all
    (tenReversed v0 v1 v2 v3 v4 v5 v6 v7 v8 v9)

/-- The strict-disorder test the scan loop performs on a list of time
offsets: starting from running value `off`, fail exactly when some offset is
strictly below its predecessor (the running value). -/
def offsetsOrdered (off : Nat) : List Nat → Bool
  | [] => true
  | x :: xs => if off > x then false else offsetsOrdered x xs

/-- The ten reorder-scenario records sorted by time offset (offsets 0..9,
each keeping its value byte). -/
def tenSorted (v0 v1 v2 v3 v4 v5 v6 v7 v8 v9 : Nat) : List RecordInfo :=
  [⟨0, v9⟩, ⟨1, v8⟩, ⟨2, v7⟩, ⟨3, v6⟩, ⟨4, v5⟩,
   ⟨5, v4⟩, ⟨6, v3⟩, ⟨7, v2⟩, ⟨8, v1⟩, ⟨9, v0⟩]

/-- The file state `reorder_record` produces from the reversed store: the
same 15-byte header region followed by the sorted records. -/
def tenReorderedDB (v0 v1 v2 v3 v4 v5 v6 v7 v8 v9 : Nat) : PhysicalDB :=
  ⟨(Timestamp.as_bytes ⟨2020, 1, 1, 0, 0, 0⟩ ++ u64le 10) ++
      ((tenSorted v0 v1 v2 v3 v4 v5 v6 v7 v8 v9).map
        RecordInfo.as_bytes).flatten,
    ⟨⟨2020, 1, 1, 0, 0, 0⟩, 10⟩⟩

lemma timestamp_as_bytes_length (t : Timestamp) : t.as_bytes.length = 7 := rfl

lemma record_as_bytes_length (r : RecordInfo) : r.as_bytes.length = 5 := rfl

lemma u64le_length (n : Nat) : (u64le n).length = 8 := rfl

lemma header_as_bytes_length (h : DbHeader) : h.as_bytes.length = 15 := by
  simp [DbHeader.as_bytes, Timestamp.as_bytes, u64le]

lemma timestamp_roundtrip (t : Timestamp) (h : t.wf) :
    Timestamp.fromBytesTotal t.as_bytes = t := by
  obtain ⟨h1, h2, h3, h4, h5, h6⟩ := h
  cases t
  simp only [Timestamp.fromBytesTotal, Timestamp.as_bytes, List.getD_cons_zero,
    List.getD_cons_succ, Timestamp.mk.injEq] at *
  refine ⟨by omega, trivial, trivial, trivial, trivial, trivial⟩

lemma record_roundtrip (r : RecordInfo) (h : r.wf) :
    RecordInfo.fromBytesTotal r.as_bytes = r := by
  obtain ⟨h1, h2⟩ := h
  cases r
  simp only [RecordInfo.fromBytesTotal, RecordInfo.as_bytes, u32le,
    List.cons_append, List.nil_append, List.getD_cons_zero,
    List.getD_cons_succ, RecordInfo.mk.injEq] at *
  refine ⟨by omega, trivial⟩

lemma header_roundtrip (h : DbHeader) (hw : h.wf) :
    DbHeader.fromBytesTotal h.as_bytes = h := by
  obtain ⟨h1, h2⟩ := hw
  cases h with
  | mk origin n =>
    simp only [DbHeader.fromBytesTotal, DbHeader.as_bytes, DbHeader.mk.injEq]
    constructor
    · cases origin
      obtain ⟨g1, g2, g3, g4, g5, g6⟩ := h1
      simp only [Timestamp.fromBytesTotal, Timestamp.as_bytes, u64le,
        List.cons_append, List.nil_append, List.getD_cons_zero,
        List.getD_cons_succ, Timestamp.mk.injEq] at *
      refine ⟨by omega, trivial, trivial, trivial, trivial, trivial⟩
    · cases origin
      simp only [Timestamp.as_bytes, u64le, List.cons_append, List.nil_append,
        List.getD_cons_zero, List.getD_cons_succ] at *
      omega

lemma writeAt_at_length (f d : List Nat) : writeAt f f.length d = f ++ d := by
  simp [writeAt, List.drop_eq_nil_of_le (Nat.le_add_right f.length d.length)]

lemma writeAt_prefix (a c d : List Nat) :
    writeAt (a ++ c) a.length d = a ++ d ++ c.drop d.length := by
  unfold writeAt
  rw [List.take_left, List.drop_append, List.length_append,
    Nat.sub_eq_zero_of_le (Nat.le_add_right _ _), List.replicate_zero]
  simp

lemma readAt_append (a b : List Nat) (p n : Nat) :
    readAt (a ++ b) (a.length + p) n = readAt b p n := by
  simp [readAt, List.drop_append]

lemma append_record_shape (origin : Timestamp) (k : Nat) (body : List Nat)
    (r : RecordInfo) :
    PhysicalDB.append_record
        ⟨origin.as_bytes ++ u64le k ++ body, ⟨origin, k⟩⟩ r =
      ⟨origin.as_bytes ++ u64le (k + 1) ++ (body ++ r.as_bytes),
        ⟨origin, k + 1⟩⟩ := by
  have h1 : writeAt (origin.as_bytes ++ u64le k ++ body)
      (origin.as_bytes ++ u64le k ++ body).length r.as_bytes =
      origin.as_bytes ++ (u64le k ++ (body ++ r.as_bytes)) := by
    rw [writeAt_at_length]; simp [List.append_assoc]
  have h2 : writeAt (origin.as_bytes ++ (u64le k ++ (body ++ r.as_bytes))) 7
      (u64le (k + 1)) =
      origin.as_bytes ++ u64le (k + 1) ++ (body ++ r.as_bytes) := by
    rw [show (7 : Nat) = origin.as_bytes.length from rfl, writeAt_prefix,
      show (u64le (k + 1)).length = (u64le k).length from rfl, List.drop_left]
  unfold PhysicalDB.append_record PhysicalDB.update_record_number
  dsimp only
  rw [h1, h2]

lemma append_all_shape (origin : Timestamp) (rs : List RecordInfo) :
    ∀ (k : Nat) (body : List Nat),
      PhysicalDB.append_all
          ⟨origin.as_bytes ++ u64le k ++ body, ⟨origin, k⟩⟩ rs =
        ⟨origin.as_bytes ++ u64le (k + rs.length) ++
          (body ++ (rs.map RecordInfo.as_bytes).flatten),
          ⟨origin, k + rs.length⟩⟩ := by
  induction rs with
  | nil => intro k body; simp [PhysicalDB.append_all]
  | cons r rs ih =>
    intro k body
    have ih2 := ih (k + 1) (body ++ r.as_bytes)
    simp only [PhysicalDB.append_all, List.foldl_cons] at ih2 ⊢
    rw [append_record_shape, ih2]
    have hk : k + 1 + rs.length = k + (rs.length + 1) := by omega
    rw [hk]
    simp [List.append_assoc]

lemma create_append_all (origin : Timestamp) (rs : List RecordInfo) :
    (PhysicalDB.create origin).append_all rs =
      ⟨origin.as_bytes ++ u64le rs.length ++
        (rs.map RecordInfo.as_bytes).flatten, ⟨origin, rs.length⟩⟩ := by
  have h := append_all_shape origin rs 0 []
  simpa [PhysicalDB.create, DbHeader.as_bytes] using h

lemma flatten_record_length (rs : List RecordInfo) :
    ((rs.map RecordInfo.as_bytes).flatten).length = 5 * rs.length := by
  induction rs with
  | nil => simp
  | cons r rs ih =>
    simp only [List.map_cons, List.flatten_cons, List.length_append, ih,
      record_as_bytes_length, List.length_cons]
    omega

lemma flatten_record_drop (rs : List RecordInfo) :
    ∀ (i : Nat), ((rs.map RecordInfo.as_bytes).flatten).drop (5 * i) =
      ((rs.drop i).map RecordInfo.as_bytes).flatten := by
  induction rs with
  | nil => intro i; simp
  | cons r rs ih =>
    intro i
    cases i with
    | zero => simp
    | succ j =>
      simp only [List.map_cons, List.flatten_cons, List.drop_succ_cons]
      rw [show 5 * (j + 1) = (RecordInfo.as_bytes r).length + 5 * j from by
        rw [record_as_bytes_length]; omega]
      rw [List.drop_append, ih j]

lemma read_record_pre (pre : List Nat) (rs : List RecordInfo) (hdr : DbHeader)
    (hpre : pre.length = 15) (i : Nat) (hi : i < rs.length) :
    PhysicalDB.read_record
        ⟨pre ++ (rs.map RecordInfo.as_bytes).flatten, hdr⟩ i =
      .ok (RecordInfo.fromBytesTotal (RecordInfo.as_bytes rs[i])) := by
  have hlen : (pre ++ (rs.map RecordInfo.as_bytes).flatten).length =
      15 + 5 * rs.length := by
    simp only [List.length_append, hpre, flatten_record_length]
  have hchk : PhysicalDB.check_record_index
      ⟨pre ++ (rs.map RecordInfo.as_bytes).flatten, hdr⟩ i = true := by
    simp only [PhysicalDB.check_record_index, hlen, decide_eq_true_eq]
    omega
  have hbuf : readAt (pre ++ (rs.map RecordInfo.as_bytes).flatten)
      (15 + 5 * i) 5 = RecordInfo.as_bytes rs[i] := by
    rw [show 15 + 5 * i = pre.length + 5 * i from by rw [hpre]]
    rw [readAt_append]
    unfold readAt
    rw [flatten_record_drop rs i, List.drop_eq_getElem_cons hi]
    simp only [List.map_cons, List.flatten_cons]
    rw [show (5 : Nat) = (RecordInfo.as_bytes rs[i]).length from
      (record_as_bytes_length _).symm]
    rw [List.take_left]
  unfold PhysicalDB.read_record
  simp [hchk, hbuf, record_as_bytes_length]

lemma read_header_pre (origin : Timestamp) (k : Nat) (body : List Nat)
    (hdr : DbHeader) :
    PhysicalDB.read_header ⟨origin.as_bytes ++ u64le k ++ body, hdr⟩ =
      .ok (DbHeader.fromBytesTotal (origin.as_bytes ++ u64le k)) := by
  have hbuf : readAt (origin.as_bytes ++ u64le k ++ body) 0 15 =
      origin.as_bytes ++ u64le k := by
    unfold readAt
    rw [List.drop_zero]
    rw [show (15 : Nat) = (origin.as_bytes ++ u64le k).length from by
      simp [timestamp_as_bytes_length, u64le_length]]
    rw [List.take_left]
  unfold PhysicalDB.read_header
  dsimp only
  rw [hbuf, show (origin.as_bytes ++ u64le k).length = 15 from by
    simp [timestamp_as_bytes_length, u64le_length]]
  rfl

/-- C7: for every Timestamp, RecordInfo and DbHeader value within the
machine ranges of its Rust field types, decoding the bytes produced by
encoding yields the value back, and the encodings are exactly 7, 5 and 15
bytes long. -/
theorem codec_roundtrip (t : Timestamp) (r : RecordInfo) (h : DbHeader)
    (ht : t.wf) (hr : r.wf) (hh : h.wf) :
    (Timestamp.fromBytes t.as_bytes = some t ∧ t.as_bytes.length = 7) ∧
    (RecordInfo.fromBytes r.as_bytes = some r ∧ r.as_bytes.length = 5) ∧
    (DbHeader.fromBytes h.as_bytes = some h ∧ h.as_bytes.length = 15) := by
  refine ⟨⟨?_, rfl⟩, ⟨?_, rfl⟩, ⟨?_, header_as_bytes_length h⟩⟩
  · simp [Timestamp.fromBytes, timestamp_as_bytes_length,
      timestamp_roundtrip t ht]
  · simp [RecordInfo.fromBytes, record_as_bytes_length,
      record_roundtrip r hr]
  · rw [DbHeader.fromBytes, if_pos (by rw [header_as_bytes_length]),
      header_roundtrip h hh]

/-- Instance of `codec_roundtrip` at concrete values. -/
theorem codec_roundtrip_witness :
    (Timestamp.wf ⟨1994, 7, 8, 6, 55, 34⟩ ∧ RecordInfo.wf ⟨5, 10⟩ ∧
      DbHeader.wf ⟨⟨1994, 7, 8, 6, 55, 34⟩, 3⟩) ∧
    ((Timestamp.fromBytes (Timestamp.as_bytes ⟨1994, 7, 8, 6, 55, 34⟩) =
        some ⟨1994, 7, 8, 6, 55, 34⟩ ∧
      (Timestamp.as_bytes ⟨1994, 7, 8, 6, 55, 34⟩).length = 7) ∧
     (RecordInfo.fromBytes (RecordInfo.as_bytes ⟨5, 10⟩) = some ⟨5, 10⟩ ∧
      (RecordInfo.as_bytes ⟨5, 10⟩).length = 5) ∧
     (DbHeader.fromBytes (DbHeader.as_bytes ⟨⟨1994, 7, 8, 6, 55, 34⟩, 3⟩) =
        some ⟨⟨1994, 7, 8, 6, 55, 34⟩, 3⟩ ∧
      (DbHeader.as_bytes ⟨⟨1994, 7, 8, 6, 55, 34⟩, 3⟩).length = 15)) :=
  ⟨⟨by decide, by decide, by decide⟩,
    codec_roundtrip _ _ _ (by decide) (by decide) (by decide)⟩

/-- C9: `is_valid` accepts 2000-02-29 and rejects 1900-02-29 for any
in-range time fields: the February branch implements the divisible-by-4
leap rule with the 100/400 exception. -/
theorem leap_year_feb29 (h m s : Nat) (hh : h < 24) (hm : m < 60)
    (hs : s < 60) :
    Timestamp.is_valid ⟨2000, 2, 29, h, m, s⟩ = true ∧
    Timestamp.is_valid ⟨1900, 2, 29, h, m, s⟩ = false := by
  constructor <;>
  · simp only [Timestamp.is_valid]
    simp [decide_eq_true hh, decide_eq_true hm, decide_eq_true hs]

/-- Instance of `leap_year_feb29` at midnight. -/
theorem leap_year_feb29_witness :
    ((0 : Nat) < 24 ∧ (0 : Nat) < 60 ∧ (0 : Nat) < 60) ∧
    (Timestamp.is_valid ⟨2000, 2, 29, 0, 0, 0⟩ = true ∧
     Timestamp.is_valid ⟨1900, 2, 29, 0, 0, 0⟩ = false) :=
  ⟨⟨by decide, by decide, by decide⟩,
    leap_year_feb29 0 0 0 (by decide) (by decide) (by decide)⟩

/-- C1: the code's `is_valid` does not implement the real month lengths.
For months other than February it uses an odd/even rule
(`month % 2 == 0 → day ≤ 30`, `month % 2 == 1 → day ≤ 31`), which is wrong
from August on: August 31 (a real date) is rejected and September 31 (not
a real date) is accepted. -/
theorem is_valid_month_length_bug :
    Timestamp.is_valid ⟨2000, 8, 31, 0, 0, 0⟩ = false ∧
    realValid ⟨2000, 8, 31, 0, 0, 0⟩ = true ∧
    Timestamp.is_valid ⟨2000, 9, 31, 0, 0, 0⟩ = true ∧
    realValid ⟨2000, 9, 31, 0, 0, 0⟩ = false := by decide

/-- C4 counterexample: decoding the empty byte slice does not produce an
error result — it panics (`none` models the `unwrap` panic of the
`From<&[u8]>` impls); no `DecodeError` exists in the code. -/
theorem decode_short_input_panics :
    Timestamp.fromBytes [] = none ∧ RecordInfo.fromBytes [] = none ∧
    DbHeader.fromBytes [] = none := by decide

/-- C4 amended: each decoder panics (`none`) exactly when the input is
shorter than its fixed encoded size (7 / 5 / 15 bytes); it never returns an
error value for short input. -/
theorem decode_short_input_panic_iff (d : List Nat) :
    (Timestamp.fromBytes d = none ↔ d.length < 7) ∧
    (RecordInfo.fromBytes d = none ↔ d.length < 5) ∧
    (DbHeader.fromBytes d = none ↔ d.length < 15) := by
  refine ⟨?_, ?_, ?_⟩ <;>
    simp [Timestamp.fromBytes, RecordInfo.fromBytes, DbHeader.fromBytes,
      ite_eq_right_iff]

/-- C2: on the well-formed one-record store (file size 20, so the 5-byte
slot of index 1 does not exist: `15 + 5 * (1 + 1) = 25 > 20`), `read_record 1`
does not fail with `IndexOutOfBound` — the source's bound check compares the
file size against the slot's start `15 + 5 * 1 = 20`, so the index passes
the check and the short read surfaces as an `IOError`; `update_record 1`
even succeeds, extending the file. -/
theorem index_bound_off_by_one :
    oneRecordDB.file.length = 20 ∧
    oneRecordDB.header.records_number = 1 ∧
    oneRecordDB.read_record 1 =
      .error (.IOError "Could not read record: not enough octets.") ∧
    (∃ db2, oneRecordDB.update_record 1 7 = .ok db2) :=
  ⟨rfl, rfl, rfl, ⟨_, rfl⟩⟩

/-- C3: a header declaring more records than the file physically holds does
not yield `MismatchRecordAmount` — the scan's record loop hits the missing
slot first and reports `RecordCorrupted`; and reaching the final count check
does not require the declared count to match: a file with more complete
slots than declared scans clean and returns `None`. (The final check
`check_record_index(records_number)` compares the file size against the
start offset of slot `records_number`, which any file that survived the
loop satisfies, so `MismatchRecordAmount` is unreachable.) -/
theorem mismatch_record_amount_unreachable :
    PhysicalDB.check_db_file missingSlotDB = DbIssue.RecordCorrupted 0 ∧
    PhysicalDB.check_db_file extraSlotDB = DbIssue.None := ⟨rfl, rfl⟩

/-- C5: appending a record to a freshly created store (records_number = 0)
makes `read_record 0` return that record and `read_header` return a header
with `records_number = 1` (and the unchanged origin date). -/
theorem append_on_fresh_store (origin : Timestamp) (r : RecordInfo)
    (ho : origin.wf) (hr : r.wf) :
    ((PhysicalDB.create origin).append_record r).read_record 0 = .ok r ∧
    ((PhysicalDB.create origin).append_record r).read_header =
      .ok ⟨origin, 1⟩ := by
  have hdb : (PhysicalDB.create origin).append_record r =
      ⟨origin.as_bytes ++ u64le 1 ++ r.as_bytes, ⟨origin, 1⟩⟩ := by
    have h := append_record_shape origin 0 [] r
    simpa [PhysicalDB.create, DbHeader.as_bytes] using h
  have hdb2 : (PhysicalDB.create origin).append_record r =
      ⟨(origin.as_bytes ++ u64le 1) ++
        (([r].map RecordInfo.as_bytes).flatten), ⟨origin, 1⟩⟩ := by
    rw [hdb]; simp
  constructor
  · rw [hdb2, read_record_pre _ _ _
      (by simp [timestamp_as_bytes_length, u64le_length]) 0 (by simp)]
    simp [record_roundtrip r hr]
  · rw [hdb, read_header_pre]
    rw [show origin.as_bytes ++ u64le 1 = DbHeader.as_bytes ⟨origin, 1⟩
      from rfl]
    rw [header_roundtrip ⟨origin, 1⟩ ⟨ho, by norm_num⟩]

/-- Instance of `append_on_fresh_store` at concrete values. -/
theorem append_on_fresh_store_witness :
    (Timestamp.wf ⟨2020, 1, 1, 0, 0, 0⟩ ∧ RecordInfo.wf ⟨5, 10⟩) ∧
    (((PhysicalDB.create ⟨2020, 1, 1, 0, 0, 0⟩).append_record
        ⟨5, 10⟩).read_record 0 = .ok ⟨5, 10⟩ ∧
     ((PhysicalDB.create ⟨2020, 1, 1, 0, 0, 0⟩).append_record
        ⟨5, 10⟩).read_header = .ok ⟨⟨2020, 1, 1, 0, 0, 0⟩, 1⟩) :=
  ⟨⟨by decide, by decide⟩,
    append_on_fresh_store _ _ (by decide) (by decide)⟩

lemma record_roundtrip_off (r : RecordInfo) (h : r.time_offset < 4294967296) :
    RecordInfo.fromBytesTotal r.as_bytes = r := by
  cases r
  simp only [RecordInfo.fromBytesTotal, RecordInfo.as_bytes, u32le,
    List.cons_append, List.nil_append, List.getD_cons_zero,
    List.getD_cons_succ, RecordInfo.mk.injEq] at *
  refine ⟨by omega, trivial⟩

lemma read_record_shape_ok (pre : List Nat) (rs : List RecordInfo)
    (hdr : DbHeader) (hpre : pre.length = 15)
    (hwf : ∀ r ∈ rs, r.time_offset < 4294967296) (i : Nat)
    (hi : i < rs.length) :
    PhysicalDB.read_record
        ⟨pre ++ (rs.map RecordInfo.as_bytes).flatten, hdr⟩ i = .ok rs[i] := by
  rw [read_record_pre pre rs hdr hpre i hi]
  congr 1
  exact record_roundtrip_off _ (hwf _ (List.getElem_mem hi))

lemma checkRecords_shape (pre : List Nat) (rs : List RecordInfo)
    (hdr : DbHeader) (n : Nat) (hpre : pre.length = 15)
    (hwf : ∀ r ∈ rs, r.time_offset < 4294967296) :
    ∀ (rem i off : Nat), i + rem = rs.length →
      PhysicalDB.checkRecords
          ⟨pre ++ (rs.map RecordInfo.as_bytes).flatten, hdr⟩ n off i rem =
        if offsetsOrdered off ((rs.drop i).map RecordInfo.time_offset) then
          (if PhysicalDB.check_record_index
              ⟨pre ++ (rs.map RecordInfo.as_bytes).flatten, hdr⟩ n then
            DbIssue.None
          else DbIssue.MismatchRecordAmount)
        else DbIssue.UnorderedRecord := by
  intro rem
  induction rem with
  | zero =>
    intro i off hi
    have hd : rs.drop i = [] := List.drop_eq_nil_of_le (by omega)
    simp [PhysicalDB.checkRecords, hd, offsetsOrdered]
  | succ rem ih =>
    intro i off hi
    have hilt : i < rs.length := by omega
    have hread := read_record_shape_ok pre rs hdr hpre hwf i hilt
    rw [List.drop_eq_getElem_cons hilt]
    simp only [PhysicalDB.checkRecords, hread, List.map_cons, offsetsOrdered]
    by_cases hcmp : off > rs[i].time_offset
    · simp [hcmp]
    · simp only [hcmp, if_neg, Bool.false_eq_true, ite_false, if_false]
      rw [ih (i + 1) rs[i].time_offset (by omega)]

lemma readAll_shape (pre : List Nat) (rs : List RecordInfo) (hdr : DbHeader)
    (hpre : pre.length = 15)
    (hwf : ∀ r ∈ rs, r.time_offset < 4294967296) :
    ∀ (rem i : Nat), i + rem = rs.length →
      PhysicalDB.readAll
          ⟨pre ++ (rs.map RecordInfo.as_bytes).flatten, hdr⟩ i rem =
        .ok (rs.drop i) := by
  intro rem
  induction rem with
  | zero =>
    intro i hi
    have hd : rs.drop i = [] := List.drop_eq_nil_of_le (by omega)
    rw [hd]
    rfl
  | succ rem ih =>
    intro i hi
    have hilt : i < rs.length := by omega
    have hread := read_record_shape_ok pre rs hdr hpre hwf i hilt
    simp only [PhysicalDB.readAll, hread, ih (i + 1) (by omega)]
    rw [List.drop_eq_getElem_cons hilt]

lemma check_db_file_eval (db : PhysicalDB) (o : Timestamp) (n : Nat)
    (hh : db.read_header = .ok ⟨o, n⟩) (hv : o.is_valid = true) :
    db.check_db_file = db.checkRecords n 0 0 n := by
  unfold PhysicalDB.check_db_file
  rw [hh]
  simp [hv]

lemma reorder_eval (db : PhysicalDB) (records : List RecordInfo)
    (hall : db.readAll 0 db.header.records_number = .ok records) :
    db.reorder_record = .ok ⟨writeAt db.file 15
      (((sortRecords records).map RecordInfo.as_bytes).flatten),
      db.header⟩ := by
  unfold PhysicalDB.reorder_record
  rw [hall]

/-- C6: appending ten records with time offsets [9,8,...,0] to a fresh
store makes `check_db_file` report `UnorderedRecord`; `reorder_record`
succeeds, after it `check_db_file` reports `None`, and reading records 0..9
back in index order yields time offsets [0,1,...,9]. Holds for arbitrary
value bytes. -/
theorem unordered_then_reorder (v0 v1 v2 v3 v4 v5 v6 v7 v8 v9 : Nat) :
    (tenReversedDB v0 v1 v2 v3 v4 v5 v6 v7 v8 v9).check_db_file =
      DbIssue.UnorderedRecord ∧
    ∃ db2,
      (tenReversedDB v0 v1 v2 v3 v4 v5 v6 v7 v8 v9).reorder_record =
        .ok db2 ∧
      db2.check_db_file = DbIssue.None ∧
      (List.range 10).map
          (fun i => Except.map RecordInfo.time_offset (db2.read_record i)) =
        (List.range 10).map Except.ok := by
  have hlen10 : (tenReversed v0 v1 v2 v3 v4 v5 v6 v7 v8 v9).length = 10 := rfl
  have hpre :
      (Timestamp.as_bytes ⟨2020, 1, 1, 0, 0, 0⟩ ++ u64le 10).length = 15 := rfl
  have hdb : tenReversedDB v0 v1 v2 v3 v4 v5 v6 v7 v8 v9 =
      ⟨(Timestamp.as_bytes ⟨2020, 1, 1, 0, 0, 0⟩ ++ u64le 10) ++
        ((tenReversed v0 v1 v2 v3 v4 v5 v6 v7 v8 v9).map
          RecordInfo.as_bytes).flatten,
        ⟨⟨2020, 1, 1, 0, 0, 0⟩, 10⟩⟩ := by
    unfold tenReversedDB
    rw [create_append_all, hlen10]
  have hd2 : tenReorderedDB v0 v1 v2 v3 v4 v5 v6 v7 v8 v9 =
      ⟨(Timestamp.as_bytes ⟨2020, 1, 1, 0, 0, 0⟩ ++ u64le 10) ++
        ((tenSorted v0 v1 v2 v3 v4 v5 v6 v7 v8 v9).map
          RecordInfo.as_bytes).flatten,
        ⟨⟨2020, 1, 1, 0, 0, 0⟩, 10⟩⟩ := rfl
  have hwfrev : ∀ r ∈ tenReversed v0 v1 v2 v3 v4 v5 v6 v7 v8 v9,
      r.time_offset < 4294967296 := by
    intro r hr
    simp only [tenReversed, List.mem_cons, List.not_mem_nil, or_false] at hr
    rcases hr with rfl | rfl | rfl | rfl | rfl | rfl | rfl | rfl | rfl | rfl <;>
      norm_num
  have hwfsor : ∀ r ∈ tenSorted v0 v1 v2 v3 v4 v5 v6 v7 v8 v9,
      r.time_offset < 4294967296 := by
    intro r hr
    simp only [tenSorted, List.mem_cons, List.not_mem_nil, or_false] at hr
    rcases hr with rfl | rfl | rfl | rfl | rfl | rfl | rfl | rfl | rfl | rfl <;>
      norm_num
  have hdec : DbHeader.fromBytesTotal
      (Timestamp.as_bytes ⟨2020, 1, 1, 0, 0, 0⟩ ++ u64le 10) =
      ⟨⟨2020, 1, 1, 0, 0, 0⟩, 10⟩ := by decide
  refine ⟨?_, tenReorderedDB v0 v1 v2 v3 v4 v5 v6 v7 v8 v9, ?_, ?_, ?_⟩
  · rw [hdb, check_db_file_eval _ ⟨2020, 1, 1, 0, 0, 0⟩ 10
      (by rw [read_header_pre, hdec]) (by decide)]
    rw [checkRecords_shape _ _ _ _ hpre hwfrev 10 0 0 (by rw [hlen10])]
    simp [tenReversed, offsetsOrdered]
  · rw [hdb]
    have hall : PhysicalDB.readAll
        ⟨(Timestamp.as_bytes ⟨2020, 1, 1, 0, 0, 0⟩ ++ u64le 10) ++
          ((tenReversed v0 v1 v2 v3 v4 v5 v6 v7 v8 v9).map
            RecordInfo.as_bytes).flatten,
          ⟨⟨2020, 1, 1, 0, 0, 0⟩, 10⟩⟩ 0 10 =
        .ok (tenReversed v0 v1 v2 v3 v4 v5 v6 v7 v8 v9) := by
      have h := readAll_shape _ _ ⟨⟨2020, 1, 1, 0, 0, 0⟩, 10⟩ hpre hwfrev
        10 0 (by rw [hlen10])
      simpa using h
    rw [reorder_eval _ (tenReversed v0 v1 v2 v3 v4 v5 v6 v7 v8 v9) hall]
    have hsort : sortRecords (tenReversed v0 v1 v2 v3 v4 v5 v6 v7 v8 v9) =
        tenSorted v0 v1 v2 v3 v4 v5 v6 v7 v8 v9 := by
      simp [tenReversed, tenSorted, sortRecords, insertRecord]
    rw [hsort]
    have hw2 : writeAt
        ((Timestamp.as_bytes ⟨2020, 1, 1, 0, 0, 0⟩ ++ u64le 10) ++
          ((tenReversed v0 v1 v2 v3 v4 v5 v6 v7 v8 v9).map
            RecordInfo.as_bytes).flatten) 15
        (((tenSorted v0 v1 v2 v3 v4 v5 v6 v7 v8 v9).map
          RecordInfo.as_bytes).flatten) =
        (Timestamp.as_bytes ⟨2020, 1, 1, 0, 0, 0⟩ ++ u64le 10) ++
          ((tenSorted v0 v1 v2 v3 v4 v5 v6 v7 v8 v9).map
            RecordInfo.as_bytes).flatten := by
      rw [show (15 : Nat) =
        (Timestamp.as_bytes ⟨2020, 1, 1, 0, 0, 0⟩ ++ u64le 10).length
        from hpre.symm, writeAt_prefix]
      rw [List.drop_eq_nil_of_le
        (by simp [flatten_record_length, tenReversed, tenSorted,
          record_as_bytes_length]),
        List.append_nil]
    rw [hw2, hd2]
  · rw [hd2, check_db_file_eval _ ⟨2020, 1, 1, 0, 0, 0⟩ 10
      (by rw [read_header_pre, hdec]) (by decide)]
    rw [checkRecords_shape _ _ _ _ hpre hwfsor 10 0 0 (by simp [tenSorted])]
    have hchk : PhysicalDB.check_record_index
        ⟨(Timestamp.as_bytes ⟨2020, 1, 1, 0, 0, 0⟩ ++ u64le 10) ++
          ((tenSorted v0 v1 v2 v3 v4 v5 v6 v7 v8 v9).map
            RecordInfo.as_bytes).flatten,
          ⟨⟨2020, 1, 1, 0, 0, 0⟩, 10⟩⟩ 10 = true := by
      simp only [PhysicalDB.check_record_index, List.length_append, hpre,
        flatten_record_length, decide_eq_true_eq]
      simp [tenSorted]
    rw [hchk]
    simp [tenSorted, offsetsOrdered]
  · have e : ∀ (i : Nat)
        (hi : i < (tenSorted v0 v1 v2 v3 v4 v5 v6 v7 v8 v9).length),
        PhysicalDB.read_record
            (tenReorderedDB v0 v1 v2 v3 v4 v5 v6 v7 v8 v9) i =
          .ok (tenSorted v0 v1 v2 v3 v4 v5 v6 v7 v8 v9)[i] := by
      intro i hi
      rw [hd2]
      exact read_record_shape_ok _ _ _ hpre hwfsor i hi
    have e0 := e 0 (by simp [tenSorted])
    have e1 := e 1 (by simp [tenSorted])
    have e2 := e 2 (by simp [tenSorted])
    have e3 := e 3 (by simp [tenSorted])
    have e4 := e 4 (by simp [tenSorted])
    have e5 := e 5 (by simp [tenSorted])
    have e6 := e 6 (by simp [tenSorted])
    have e7 := e 7 (by simp [tenSorted])
    have e8 := e 8 (by simp [tenSorted])
    have e9 := e 9 (by simp [tenSorted])
    simp only [tenSorted] at e0 e1 e2 e3 e4 e5 e6 e7 e8 e9
    rw [show List.range 10 = [0, 1, 2, 3, 4, 5, 6, 7, 8, 9] from by decide]
    simp [e0, e1, e2, e3, e4, e5, e6, e7, e8, e9, Except.map]

lemma writeAt_single (f : List Nat) (p w : Nat) (hp : p ≤ f.length) :
    writeAt f p [w] = f.take p ++ w :: f.drop (p + 1) := by
  simp [writeAt, Nat.sub_eq_zero_of_le hp]

lemma writeAt_single_length (f : List Nat) (p w : Nat) (hp : p < f.length) :
    (f.take p ++ w :: f.drop (p + 1)).length = f.length := by
  simp only [List.length_append, List.length_take, List.length_cons,
    List.length_drop]
  omega

lemma readAt_write_left (f : List Nat) (p q n w : Nat) (hp : p ≤ f.length)
    (hqn : q + n ≤ p) :
    readAt (f.take p ++ w :: f.drop (p + 1)) q n = readAt f q n := by
  unfold readAt
  rw [List.drop_append_eq_append_drop]
  have hlt : (f.take p).length = p := by rw [List.length_take]; omega
  rw [hlt, show q - p = 0 from by omega, List.drop_zero,
    List.take_append_eq_append_take]
  have hlen2 : ((f.take p).drop q).length = p - q := by
    simp only [List.length_drop, hlt]
  rw [hlen2, show n - (p - q) = 0 from by omega, List.take_zero,
    List.append_nil, List.drop_take, List.take_take]
  congr 1
  omega

lemma readAt_write_right (f : List Nat) (p q n w : Nat) (hp : p ≤ f.length)
    (hq : p + 1 ≤ q) :
    readAt (f.take p ++ w :: f.drop (p + 1)) q n = readAt f q n := by
  unfold readAt
  rw [List.append_cons, List.drop_append_eq_append_drop]
  have h1 : (f.take p ++ [w]).length = p + 1 := by
    simp only [List.length_append, List.length_take, List.length_cons,
      List.length_nil]
    omega
  rw [List.drop_eq_nil_of_le (by rw [h1]; omega), List.nil_append, h1,
    List.drop_drop, show p + 1 + (q - (p + 1)) = q from by omega]

lemma readAt_write_at (f : List Nat) (p w : Nat) (hp : p ≤ f.length) :
    readAt (f.take p ++ w :: f.drop (p + 1)) p 1 = [w] := by
  unfold readAt
  rw [List.drop_append_eq_append_drop]
  rw [List.drop_eq_nil_of_le (by rw [List.length_take]; omega)]
  rw [show p - (f.take p).length = 0 from by rw [List.length_take]; omega,
    List.drop_zero, List.nil_append]
  rfl

lemma readAt_split (f : List Nat) (q m n : Nat) :
    readAt f q (m + n) = readAt f q m ++ readAt f (q + m) n := by
  unfold readAt
  rw [List.take_add]
  congr 1
  rw [List.drop_drop]

lemma readAt_length (f : List Nat) (q n : Nat) (h : q + n ≤ f.length) :
    (readAt f q n).length = n := by
  unfold readAt
  simp only [List.length_take, List.length_drop]
  omega

lemma record_value_byte (ys : List Nat) (a b : Nat) (h : ys.length = 4) :
    RecordInfo.fromBytesTotal (ys ++ [a]) =
      ⟨(RecordInfo.fromBytesTotal (ys ++ [b])).time_offset, a⟩ := by
  rcases ys with _ | ⟨y0, _ | ⟨y1, _ | ⟨y2, _ | ⟨y3, _ | ⟨y4, t⟩⟩⟩⟩⟩ <;>
    simp_all [RecordInfo.fromBytesTotal]

/-- C8: on a well-formed store (file length exactly `15 + 5 * records_number`)
and an in-bounds index `i`, `update_record i v` succeeds and changes only the
value byte of slot `i`: the file length, the cached header, the header read
back from disk, and every other record are unchanged, and record `i` keeps
its time offset while its value becomes `v`. -/
theorem update_record_frame (db : PhysicalDB) (i v : Nat)
    (hlen : db.file.length = 15 + 5 * db.header.records_number)
    (hi : i < db.header.records_number) :
    ∃ db2, db.update_record i v = .ok db2 ∧
      db2.file.length = db.file.length ∧
      db2.header = db.header ∧
      db2.read_header = db.read_header ∧
      (∀ j, j ≠ i → db2.read_record j = db.read_record j) ∧
      ∃ r, db.read_record i = .ok r ∧
        db2.read_record i = .ok ⟨r.time_offset, v⟩ := by
  obtain ⟨f, hdr⟩ := db
  dsimp only at hlen hi ⊢
  have hple : 15 + 5 * i + 4 ≤ f.length := by omega
  have hchk : PhysicalDB.check_record_index ⟨f, hdr⟩ i = true := by
    simp only [PhysicalDB.check_record_index, decide_eq_true_eq]
    omega
  have hlen2 : (f.take (15 + 5 * i + 4) ++ v ::
      f.drop (15 + 5 * i + 4 + 1)).length = f.length :=
    writeAt_single_length f _ v (by omega)
  refine ⟨⟨f.take (15 + 5 * i + 4) ++ v ::
    f.drop (15 + 5 * i + 4 + 1), hdr⟩, ?_, ?_, rfl, ?_, ?_, ?_⟩
  · unfold PhysicalDB.update_record
    rw [if_pos hchk, writeAt_single f (15 + 5 * i + 4) v hple]
  · exact hlen2
  · unfold PhysicalDB.read_header
    dsimp only
    rw [readAt_write_left f (15 + 5 * i + 4) 0 15 v hple (by omega)]
  · intro j hj
    have hchkj : PhysicalDB.check_record_index ⟨f.take (15 + 5 * i + 4) ++
        v :: f.drop (15 + 5 * i + 4 + 1), hdr⟩ j =
        PhysicalDB.check_record_index ⟨f, hdr⟩ j := by
      simp only [PhysicalDB.check_record_index]
      dsimp only
      rw [hlen2]
    have hr : readAt (f.take (15 + 5 * i + 4) ++ v ::
        f.drop (15 + 5 * i + 4 + 1)) (15 + 5 * j) 5 =
        readAt f (15 + 5 * j) 5 := by
      rcases Nat.lt_or_ge j i with hlt | hge
      · exact readAt_write_left f _ _ _ v hple (by omega)
      · have hgt : i < j := by omega
        exact readAt_write_right f _ _ _ v hple (by omega)
    unfold PhysicalDB.read_record
    dsimp only
    rw [hchkj, hr]
  · have hys : (readAt f (15 + 5 * i) 4).length = 4 :=
      readAt_length f _ 4 (by omega)
    obtain ⟨w, hw⟩ := List.length_eq_one.mp
      (readAt_length f (15 + 5 * i + 4) 1 (by omega))
    have hsplit : readAt f (15 + 5 * i) 5 =
        readAt f (15 + 5 * i) 4 ++ [w] := by
      rw [show (5 : Nat) = 4 + 1 from rfl, readAt_split, hw]
    have hsplit2 : readAt (f.take (15 + 5 * i + 4) ++ v ::
        f.drop (15 + 5 * i + 4 + 1)) (15 + 5 * i) 5 =
        readAt f (15 + 5 * i) 4 ++ [v] := by
      rw [show (5 : Nat) = 4 + 1 from rfl, readAt_split,
        readAt_write_left f _ _ 4 v hple (by omega),
        readAt_write_at f _ v hple]
    have hchk2 : PhysicalDB.check_record_index ⟨f.take (15 + 5 * i + 4) ++
        v :: f.drop (15 + 5 * i + 4 + 1), hdr⟩ i = true := by
      simp only [PhysicalDB.check_record_index, decide_eq_true_eq]
      rw [hlen2]
      omega
    refine ⟨RecordInfo.fromBytesTotal (readAt f (15 + 5 * i) 5), ?_, ?_⟩
    · unfold PhysicalDB.read_record
      dsimp only
      rw [if_pos hchk, if_pos (readAt_length f _ 5 (by omega))]
    · unfold PhysicalDB.read_record
      dsimp only
      rw [if_pos hchk2, hsplit2,
        if_pos (by simp only [List.length_append, hys]; rfl),
        hsplit, record_value_byte _ v w hys]

/-- Instance of `update_record_frame` on the one-record store. -/
theorem update_record_frame_witness :
    (oneRecordDB.file.length = 15 + 5 * oneRecordDB.header.records_number ∧
      0 < oneRecordDB.header.records_number) ∧
    (∃ db2, oneRecordDB.update_record 0 42 = .ok db2 ∧
      db2.file.length = oneRecordDB.file.length ∧
      db2.header = oneRecordDB.header ∧
      db2.read_header = oneRecordDB.read_header ∧
      (∀ j, j ≠ 0 → db2.read_record j = oneRecordDB.read_record j) ∧
      ∃ r, oneRecordDB.read_record 0 = .ok r ∧
        db2.read_record 0 = .ok ⟨r.time_offset, 42⟩) :=
  ⟨⟨by decide, by decide⟩,
    update_record_frame oneRecordDB 0 42 (by decide) (by decide)⟩

/-- C10: for valid timestamps with `date` strictly earlier than `self` and
the gap under `2^32` seconds, `offset` neither fails nor panics: the signed
difference is negative and the `as u32` cast wraps it to `2^32` minus the
number of seconds from `date` up to `self`. -/
theorem offset_wraps_around (a b : Timestamp) (ha : realValid a = true)
    (hb : realValid b = true) (hlt : b.toSecs < a.toSecs)
    (hd : a.toSecs - b.toSecs < 4294967296) :
    a.offset b = some (4294967296 - (a.toSecs - b.toSecs)) := by
  unfold Timestamp.offset
  rw [if_pos (by rw [ha, hb]; rfl)]
  congr 1
  omega

/-- Instance of `offset_wraps_around`: 2000-01-02 back to 2000-01-01, one
day earlier, wraps to `2^32 - 86400`. -/
theorem offset_wraps_around_witness :
    (realValid ⟨2000, 1, 2, 0, 0, 0⟩ = true ∧
      realValid ⟨2000, 1, 1, 0, 0, 0⟩ = true ∧
      Timestamp.toSecs ⟨2000, 1, 1, 0, 0, 0⟩ <
        Timestamp.toSecs ⟨2000, 1, 2, 0, 0, 0⟩ ∧
      Timestamp.toSecs ⟨2000, 1, 2, 0, 0, 0⟩ -
        Timestamp.toSecs ⟨2000, 1, 1, 0, 0, 0⟩ < 4294967296) ∧
    Timestamp.offset ⟨2000, 1, 2, 0, 0, 0⟩ ⟨2000, 1, 1, 0, 0, 0⟩ =
      some (4294967296 - (Timestamp.toSecs ⟨2000, 1, 2, 0, 0, 0⟩ -
        Timestamp.toSecs ⟨2000, 1, 1, 0, 0, 0⟩)) :=
  ⟨⟨by decide, by decide, by decide, by decide⟩,
    offset_wraps_around _ _ (by decide) (by decide) (by decide) (by decide)⟩
